import Mathlib

/-!
Verification of the image-editing / versioning core of the ocrFront wizard.

The development shallowly embeds the state-manipulating logic of the
repository's React components:

* `EditHistory` — the `history` / `historyIndex` state of the image editor
  component, with the commit logic of `applyRotation` / `applyCrop` and the
  `undo` / `redo` handlers (src/components/ProtectedRoute.tsx).
* `EditorSession` — the editor coupled with its parent: every commit and
  undo/redo calls `onImageChange`, the parent (`App`) updates `imageSrc`
  via `handleImageEdit`, and the editor's `useEffect([imageSrc])` then
  reinitialises the history to `[imageSrc]`.
* `AppState` — `App.tsx` image-version state (`imageSrc`, `originalImage`,
  `editedImage`, `enhancedImage`) and its handlers, plus the PreviewPanel
  classification `getCurrentImageType` and the OCR call handler.
* file validation (`handleFileChange` of the uploader component) and
  `authService.isSessionActive` of the API service module.

Strings stand for the JavaScript string values (DataURLs); identity
comparison of buffers in the source is `===` on those strings.
-/

namespace OcrFront

/-- The check used throughout the source for a usable image value:
`imageSrc && imageSrc.startsWith('data:image')`.  The empty string is
falsy in JS and also fails the prefix test, so a single prefix test
captures the guard. -/
def validImg (s : String) : Bool :=
  "data:image".data.isPrefixOf s.data

/-- The editor component's history state: `history` (list of DataURLs) and
`historyIndex` (current position). -/
structure EditHistory where
  history : List String
  historyIndex : Nat
  deriving Repr, DecidableEq

/-- Commit logic shared by `applyRotation` and `applyCrop`:
`newHistory = history.slice(0, historyIndex + 1)`, `newHistory.push(next)`,
`setHistory(newHistory)`, `setHistoryIndex(newHistory.length - 1)`. -/
def commitEntry (h : EditHistory) (next : String) : EditHistory :=
  let newHistory := h.history.take (h.historyIndex + 1) ++ [next]
  { history := newHistory, historyIndex := newHistory.length - 1 }

/-- The `undo` handler: if `historyIndex > 0`, decrement the index
(the displayed entry becomes `history[newIndex]`); otherwise nothing. -/
def undoEntry (h : EditHistory) : EditHistory :=
  if h.historyIndex > 0 then
    { h with historyIndex := h.historyIndex - 1 }
  else h

/-- The `redo` handler: if `historyIndex < history.length - 1`, increment
the index; otherwise nothing. -/
def redoEntry (h : EditHistory) : EditHistory :=
  if h.historyIndex < h.history.length - 1 then
    { h with historyIndex := h.historyIndex + 1 }
  else h

/-- Guard of the `undo` handler (`historyIndex > 0`). -/
def canUndo (h : EditHistory) : Bool :=
  h.historyIndex > 0

/-- Guard of the `redo` handler (`historyIndex < history.length - 1`). -/
def canRedo (h : EditHistory) : Bool :=
  h.historyIndex < h.history.length - 1

/-- The currently displayed entry: the component renders
`src={history[historyIndex]}`; out-of-range JS indexing is `undefined`,
modelled as `none`. -/
def currentEntry (h : EditHistory) : Option String :=
  h.history.get? h.historyIndex

/-- C1: `commitEntry` truncates the entries to indices `0..historyIndex`
inclusive, appends the new entry, and moves the cursor to the new last
index; consequently a commit performed after an `undo` leaves `canRedo`
false — the redo branch is discarded, never retained. -/
theorem commit_truncates_and_discards_redo (h : EditHistory) (next : String) :
    (commitEntry h next).history = h.history.take (h.historyIndex + 1) ++ [next]
    ∧ (commitEntry h next).historyIndex + 1 = (commitEntry h next).history.length
    ∧ canRedo (commitEntry (undoEntry h) next) = false := by
  refine ⟨rfl, ?_, ?_⟩
  · simp [commitEntry]
  · simp only [canRedo, commitEntry, decide_eq_false_iff_not]
    simp

/-- Witness for C1 at the spec's own scenario: history `[A,B,C]` at
cursor 2, `undo`, then commit of `D` gives `[A,B,D]` with `canRedo`
false. -/
theorem commit_truncates_and_discards_redo_witness :
    (commitEntry (undoEntry ⟨["data:image/A", "data:image/B", "data:image/C"], 2⟩)
        "data:image/D").history = ["data:image/A", "data:image/B", "data:image/D"]
    ∧ canRedo (commitEntry (undoEntry ⟨["data:image/A", "data:image/B", "data:image/C"], 2⟩)
        "data:image/D") = false :=
  ⟨by decide,
    (commit_truncates_and_discards_redo
      ⟨["data:image/A", "data:image/B", "data:image/C"], 2⟩ "data:image/D").2.2⟩

/-- C3: from any history state whose cursor is in range and with
`canUndo` true, performing `undo` then immediately `redo` redisplays
exactly the entry that was current before the `undo`, with the cursor
restored to its pre-undo position. -/
theorem undo_then_redo_restores (h : EditHistory)
    (hc : canUndo h = true) (hr : h.historyIndex < h.history.length) :
    currentEntry (redoEntry (undoEntry h)) = currentEntry h
    ∧ (redoEntry (undoEntry h)).historyIndex = h.historyIndex := by
  have hpos : 0 < h.historyIndex := by
    simpa [canUndo] using hc
  have hredo : h.historyIndex - 1 < h.history.length - 1 := by omega
  have hidx : h.historyIndex - 1 + 1 = h.historyIndex := by omega
  constructor
  · simp [currentEntry, undoEntry, redoEntry, hpos, hredo, hidx]
  · simp [undoEntry, redoEntry, hpos, hredo, hidx]

/-- Witness for C3 at the concrete history `["data:image/A", "data:image/B"]`
with cursor 1. -/
theorem undo_then_redo_restores_witness :
    canUndo ⟨["data:image/A", "data:image/B"], 1⟩ = true
    ∧ (1 : Nat) < (["data:image/A", "data:image/B"] : List String).length
    ∧ (currentEntry (redoEntry (undoEntry ⟨["data:image/A", "data:image/B"], 1⟩))
          = currentEntry ⟨["data:image/A", "data:image/B"], 1⟩
        ∧ (redoEntry (undoEntry ⟨["data:image/A", "data:image/B"], 1⟩)).historyIndex = 1) :=
  ⟨by decide, by decide,
    undo_then_redo_restores ⟨["data:image/A", "data:image/B"], 1⟩ (by decide) (by decide)⟩

/-- The editor coupled with its parent: the parent's `imageSrc` prop and
the editor's history state. -/
structure EditorSession where
  imageSrc : String
  hist : EditHistory
  deriving Repr, DecidableEq

/-- `App.handleImageEdit`: updates `imageSrc` to the notified image when it
is a `data:image` DataURL, otherwise leaves it unchanged. -/
def handleImageEditSrc (src next : String) : String :=
  if validImg next then next else src

/-- The editor's `useEffect([imageSrc])`: it runs when the `imageSrc` prop
changes, and (for a valid image) reinitialises the history to
`[imageSrc]` with index 0; for an invalid image it only records an error. -/
def effectReinit (oldSrc newSrc : String) (h : EditHistory) : EditHistory :=
  if newSrc = oldSrc then h
  else if validImg newSrc then ⟨[newSrc], 0⟩
  else h

/-- Net effect of one commit (`applyRotation` / `applyCrop`): the local
slice-push commit, the `onImageChange` notification handled by
`handleImageEdit`, and the reinitialisation effect triggered by the
resulting `imageSrc` change. -/
def stepCommit (st : EditorSession) (next : String) : EditorSession :=
  let h1 := commitEntry st.hist next
  let src1 := handleImageEditSrc st.imageSrc next
  ⟨src1, effectReinit st.imageSrc src1 h1⟩

/-- Net effect of one `undo` click, including the `onImageChange`
notification and the reinitialisation effect. -/
def stepUndo (st : EditorSession) : EditorSession :=
  if st.hist.historyIndex > 0 then
    let newIndex := st.hist.historyIndex - 1
    let prev := st.hist.history.getD newIndex ""
    let h1 : EditHistory := ⟨st.hist.history, newIndex⟩
    let src1 := handleImageEditSrc st.imageSrc prev
    ⟨src1, effectReinit st.imageSrc src1 h1⟩
  else st

/-- Net effect of one `redo` click, including the `onImageChange`
notification and the reinitialisation effect. -/
def stepRedo (st : EditorSession) : EditorSession :=
  if st.hist.historyIndex < st.hist.history.length - 1 then
    let newIndex := st.hist.historyIndex + 1
    let nxt := st.hist.history.getD newIndex ""
    let h1 : EditHistory := ⟨st.hist.history, newIndex⟩
    let src1 := handleImageEditSrc st.imageSrc nxt
    ⟨src1, effectReinit st.imageSrc src1 h1⟩
  else st

/-- One user-visible editing operation on the coupled editor. -/
inductive EdOp where
  | commit (next : String)
  | undo
  | redo
  deriving Repr, DecidableEq

/-- Dispatch one operation on the coupled editor. -/
def edStep (st : EditorSession) (op : EdOp) : EditorSession :=
  match op with
  | .commit next => stepCommit st next
  | .undo => stepUndo st
  | .redo => stepRedo st

/-- Run a sequence of operations on the coupled editor, starting from the
state produced by the reinitialisation effect on a fresh `imageSrc` seed:
history `[seed]`, index 0. -/
def runEditor (seed : String) (ops : List EdOp) : EditorSession :=
  ops.foldl edStep ⟨seed, ⟨[seed], 0⟩⟩

theorem edStep_length_pos (st : EditorSession) (op : EdOp)
    (hlen : 1 ≤ st.hist.history.length) :
    1 ≤ (edStep st op).hist.history.length := by
  have hre : ∀ o n : String, ∀ h : EditHistory, 1 ≤ h.history.length →
      1 ≤ (effectReinit o n h).history.length := by
    intro o n h hh
    unfold effectReinit
    split
    · exact hh
    · split
      · simp
      · exact hh
  cases op with
  | commit next =>
      show 1 ≤ (stepCommit st next).hist.history.length
      simp only [stepCommit]
      apply hre
      simp [commitEntry]
  | undo =>
      show 1 ≤ (stepUndo st).hist.history.length
      unfold stepUndo
      split
      · exact hre _ _ _ hlen
      · exact hlen
  | redo =>
      show 1 ≤ (stepRedo st).hist.history.length
      unfold stepRedo
      split
      · exact hre _ _ _ hlen
      · exact hlen

theorem runEditor_length_pos_aux (ops : List EdOp) :
    ∀ st : EditorSession, 1 ≤ st.hist.history.length →
      1 ≤ (ops.foldl edStep st).hist.history.length := by
  induction ops with
  | nil => intro st h; exact h
  | cons op rest ih =>
      intro st h
      exact ih (edStep st op) (edStep_length_pos st op h)

/-- C2 counterexample: seeded with the image `"data:image/A"`, a single
commit of `"data:image/B"` notifies the parent, whose `imageSrc` change
re-runs the reinitialisation effect; the history becomes
`["data:image/B"]`, so the entry at index 0 is no longer the seed. -/
theorem commit_replaces_seed_entry :
    (runEditor "data:image/A" [EdOp.commit "data:image/B"]).hist.history.getD 0 ""
      ≠ "data:image/A"
    ∧ (runEditor "data:image/A" [EdOp.commit "data:image/B"]).hist
        = ⟨["data:image/B"], 0⟩ := by
  constructor
  · decide
  · decide

/-- C2 (amended): across every sequence of commit/undo/redo operations the
history always has at least one entry, but the seed at index 0 does not
survive: a commit of a valid new image ends with the reinitialisation
effect having replaced the whole history by `[next]` at index 0, so the
entry at index 0 tracks the image last handed to the parent rather than
the original seed. -/
theorem editor_history_nonempty_and_reset (seed : String) (ops : List EdOp) :
    1 ≤ (runEditor seed ops).hist.history.length
    ∧ ∀ st : EditorSession, ∀ next : String, validImg next = true →
        next ≠ st.imageSrc → (stepCommit st next).hist = ⟨[next], 0⟩ := by
  constructor
  · exact runEditor_length_pos_aux ops _ (by simp)
  · intro st next hv hne
    simp [stepCommit, handleImageEditSrc, effectReinit, hv, hne]

/-- Witness for C2's amended theorem: the length bound at a concrete run,
and the commit-resets-history clause at a concrete session and image. -/
theorem editor_history_nonempty_and_reset_witness :
    1 ≤ (runEditor "data:image/A" [EdOp.undo, EdOp.commit "data:image/B"]).hist.history.length
    ∧ validImg "data:image/B" = true
    ∧ ("data:image/B" : String) ≠ "data:image/A"
    ∧ (stepCommit ⟨"data:image/A", ⟨["data:image/A"], 0⟩⟩ "data:image/B").hist
        = ⟨["data:image/B"], 0⟩ :=
  ⟨(editor_history_nonempty_and_reset "data:image/A" [EdOp.undo, EdOp.commit "data:image/B"]).1,
    by decide, by decide,
    (editor_history_nonempty_and_reset "data:image/A" []).2
      ⟨"data:image/A", ⟨["data:image/A"], 0⟩⟩ "data:image/B" (by decide) (by decide)⟩

/-- `App.tsx` image-version state: the current image (`imageSrc`), the
three named slots, the wizard step, and the stored OCR payload.  The empty
string models the falsy initial value of each image slot. -/
structure AppState where
  imageSrc : String
  originalImage : String
  editedImage : String
  enhancedImage : String
  activeStep : Nat
  ocrData : Option String
  deriving Repr, DecidableEq

/-- Toast notifications surfaced to the user. -/
inductive Toast where
  | info (msg : String)
  | error (msg : String)
  | success (msg : String)
  deriving Repr, DecidableEq

/-- The version names accepted by `handleSelectImage`. -/
inductive ImgType where
  | original
  | edited
  | enhanced
  deriving Repr, DecidableEq

/-- `App.handleImageSelect` / `App.handleCameraCapture` success path:
for a valid DataURL, sets `imageSrc = originalImage = editedImage = s`,
clears `enhancedImage`, and moves to step 1. -/
def adoptImage (st : AppState) (s : String) : AppState :=
  if validImg s then
    { st with imageSrc := s, originalImage := s, editedImage := s, enhancedImage := "", activeStep := 1 }
  else st

/-- `App.handleImageEdit`: for a valid DataURL, updates both `imageSrc`
and `editedImage`; it does not touch `enhancedImage`. -/
def handleImageEdit (st : AppState) (s : String) : AppState :=
  if validImg s then
    { st with imageSrc := s, editedImage := s }
  else st

/-- `App.handleSelectImage`: resolves the requested slot (for `enhanced`
only when non-empty), emits the informational toasts of the source, and
updates `imageSrc` only when the resolved value is truthy.  The `enhanced`
branch with an empty slot emits nothing and changes nothing. -/
def handleSelectImage (st : AppState) (t : ImgType) : AppState × List Toast :=
  let picked : String × List Toast :=
    match t with
    | .original => (st.originalImage, [Toast.info "Usando imagen original"])
    | .edited => (st.editedImage, [Toast.info "Usando imagen editada"])
    | .enhanced =>
        if st.enhancedImage ≠ "" then
          (st.enhancedImage, [Toast.info "Usando imagen mejorada por IA"])
        else ("", [])
  if picked.1 ≠ "" then ({ st with imageSrc := picked.1 }, picked.2)
  else (st, picked.2)

/-- `App.handleEnhanceImage` success path (the `FileReader.onload`
callback): for a valid DataURL result, stores it in `enhancedImage`;
`imageSrc` is not changed. -/
def recordEnhanced (st : AppState) (s : String) : AppState :=
  if validImg s then { st with enhancedImage := s } else st

/-- `App.handleResetToOriginal`: when an original exists, points
`imageSrc` and `editedImage` back at it and clears `enhancedImage`. -/
def resetToOriginal (st : AppState) : AppState :=
  if st.originalImage ≠ "" then
    { st with imageSrc := st.originalImage, editedImage := st.originalImage, enhancedImage := "" }
  else st

/-- `App.handleReset`: clears every slot and returns to step 0. -/
def fullReset (_ : AppState) : AppState :=
  ⟨"", "", "", "", 0, none⟩

/-- PreviewPanel's `getCurrentImageType`: classification of the current
image by `===` comparison against the three slots, in source order. -/
def getCurrentImageType (st : AppState) : String :=
  if st.imageSrc = st.originalImage then "original"
  else if st.imageSrc = st.editedImage then "edited"
  else if st.imageSrc = st.enhancedImage then "enhanced"
  else "unknown"

/-- One image-affecting operation of the wizard session. -/
inductive AppOp where
  | adopt (s : String)
  | edit (s : String)
  | select (t : ImgType)
  | enhance (s : String)
  | resetOrig
  | reset
  deriving Repr, DecidableEq

/-- Dispatch one wizard operation. -/
def appStep (st : AppState) (op : AppOp) : AppState :=
  match op with
  | .adopt s => adoptImage st s
  | .edit s => handleImageEdit st s
  | .select t => (handleSelectImage st t).1
  | .enhance s => recordEnhanced st s
  | .resetOrig => resetToOriginal st
  | .reset => fullReset st

/-- The initial `App` state: every slot empty, step 0, no OCR data. -/
def initApp : AppState :=
  ⟨"", "", "", "", 0, none⟩

/-- Run a sequence of wizard operations from the initial state. -/
def runApp (ops : List AppOp) : AppState :=
  ops.foldl appStep initApp

/-- Inductive invariant tying a session state to the operations that
produced it: the enhanced slot, when non-empty, was the payload of some
`enhance` operation, and the current image is one of the named slots or
the payload of some past `enhance` operation. -/
def appInv (ops : List AppOp) (st : AppState) : Prop :=
  (st.enhancedImage = "" ∨ ∃ v, AppOp.enhance v ∈ ops ∧ st.enhancedImage = v)
  ∧ (st.imageSrc = st.originalImage ∨ st.imageSrc = st.editedImage
      ∨ (st.imageSrc = st.enhancedImage ∧ st.enhancedImage ≠ "")
      ∨ ∃ v, AppOp.enhance v ∈ ops ∧ st.imageSrc = v)

theorem appInv_mono (ops ext : List AppOp) (st : AppState)
    (h : appInv ops st) : appInv (ops ++ ext) st := by
  obtain ⟨h1, h2⟩ := h
  constructor
  · rcases h1 with h1 | ⟨v, hv, he⟩
    · exact Or.inl h1
    · exact Or.inr ⟨v, List.mem_append_left _ hv, he⟩
  · rcases h2 with h | h | h | ⟨v, hv, he⟩
    · exact Or.inl h
    · exact Or.inr (Or.inl h)
    · exact Or.inr (Or.inr (Or.inl h))
    · exact Or.inr (Or.inr (Or.inr ⟨v, List.mem_append_left _ hv, he⟩))

theorem appInv_step (ops : List AppOp) (st : AppState) (op : AppOp)
    (h : appInv ops st) : appInv (ops ++ [op]) (appStep st op) := by
  have hmem : op ∈ ops ++ [op] := List.mem_append_right _ (List.mem_singleton.mpr rfl)
  cases op with
  | adopt s =>
      show appInv (ops ++ [AppOp.adopt s]) (adoptImage st s)
      unfold adoptImage
      split
      · exact ⟨Or.inl rfl, Or.inl rfl⟩
      · exact appInv_mono ops _ st h
  | edit s =>
      show appInv (ops ++ [AppOp.edit s]) (handleImageEdit st s)
      unfold handleImageEdit
      split
      · refine ⟨?_, Or.inr (Or.inl rfl)⟩
        rcases h.1 with h1 | ⟨v, hv, he⟩
        · exact Or.inl h1
        · exact Or.inr ⟨v, List.mem_append_left _ hv, he⟩
      · exact appInv_mono ops _ st h
  | select t =>
      show appInv (ops ++ [AppOp.select t]) (handleSelectImage st t).1
      have h' := appInv_mono ops [AppOp.select t] st h
      unfold handleSelectImage
      cases t with
      | original =>
          simp only
          split
          · exact ⟨h'.1, Or.inl rfl⟩
          · exact h'
      | edited =>
          simp only
          split
          · exact ⟨h'.1, Or.inr (Or.inl rfl)⟩
          · exact h'
      | enhanced =>
          by_cases hne : st.enhancedImage = ""
          · simp [hne]
            exact h'
          · simp [hne]
            exact ⟨h'.1, Or.inr (Or.inr (Or.inl ⟨rfl, hne⟩))⟩
  | enhance s =>
      show appInv (ops ++ [AppOp.enhance s]) (recordEnhanced st s)
      unfold recordEnhanced
      split
      · refine ⟨Or.inr ⟨s, hmem, rfl⟩, ?_⟩
        rcases h.2 with h2 | h2 | ⟨h2, hne⟩ | ⟨v, hv, he⟩
        · exact Or.inl h2
        · exact Or.inr (Or.inl h2)
        · rcases h.1 with h1 | ⟨v, hv, he⟩
          · exact absurd h1 hne
          · exact Or.inr (Or.inr (Or.inr ⟨v, List.mem_append_left _ hv, h2.trans he⟩))
        · exact Or.inr (Or.inr (Or.inr ⟨v, List.mem_append_left _ hv, he⟩))
      · exact appInv_mono ops _ st h
  | resetOrig =>
      show appInv (ops ++ [AppOp.resetOrig]) (resetToOriginal st)
      unfold resetToOriginal
      split
      · exact ⟨Or.inl rfl, Or.inl rfl⟩
      · exact appInv_mono ops _ st h
  | reset =>
      exact ⟨Or.inl rfl, Or.inl rfl⟩

theorem appInv_run (ops : List AppOp) : appInv ops (runApp ops) := by
  induction ops using List.reverseRecOn with
  | nil => exact ⟨Or.inl rfl, Or.inl rfl⟩
  | append_singleton rest op ih =>
      have : runApp (rest ++ [op]) = appStep (runApp rest) op := by
        simp [runApp, List.foldl_append]
      rw [this]
      exact appInv_step rest (runApp rest) op ih

/-- C4 counterexample: adopt `S`, enhance to `E1`, select the enhanced
version, then enhance again to `E2`.  The current image is still `E1`,
which is identity-equal to none of the three slots, and the PreviewPanel
classification returns `"unknown"` even though the slots hold distinct
values. -/
theorem second_enhance_orphans_current :
    getCurrentImageType (runApp [AppOp.adopt "data:image/S",
      AppOp.enhance "data:image/E1", AppOp.select ImgType.enhanced,
      AppOp.enhance "data:image/E2"]) = "unknown" := by
  decide

/-- C4 (amended): at every reachable state of the wizard session the
current image is identity-equal to the original slot, the edited slot,
the enhanced slot, or the payload of some earlier `enhance` operation (a
stale enhanced buffer); in the last case — reachable when a second
enhance replaces the enhanced slot while the current image still points
at the old enhanced buffer — the classification returns `"unknown"`. -/
theorem current_matches_slot_or_stale_enhanced (ops : List AppOp) :
    (runApp ops).imageSrc = (runApp ops).originalImage
    ∨ (runApp ops).imageSrc = (runApp ops).editedImage
    ∨ (runApp ops).imageSrc = (runApp ops).enhancedImage
    ∨ ∃ v, AppOp.enhance v ∈ ops ∧ (runApp ops).imageSrc = v := by
  rcases (appInv_run ops).2 with h | h | ⟨h, _⟩ | h
  · exact Or.inl h
  · exact Or.inr (Or.inl h)
  · exact Or.inr (Or.inr (Or.inl h))
  · exact Or.inr (Or.inr (Or.inr h))

/-- Witness for C4's amended theorem at a concrete one-operation run. -/
theorem current_matches_slot_or_stale_enhanced_witness :
    (runApp [AppOp.adopt "data:image/S"]).imageSrc
        = (runApp [AppOp.adopt "data:image/S"]).originalImage
    ∨ (runApp [AppOp.adopt "data:image/S"]).imageSrc
        = (runApp [AppOp.adopt "data:image/S"]).editedImage
    ∨ (runApp [AppOp.adopt "data:image/S"]).imageSrc
        = (runApp [AppOp.adopt "data:image/S"]).enhancedImage
    ∨ ∃ v, AppOp.enhance v ∈ [AppOp.adopt "data:image/S"]
        ∧ (runApp [AppOp.adopt "data:image/S"]).imageSrc = v :=
  current_matches_slot_or_stale_enhanced [AppOp.adopt "data:image/S"]

/-- C5 counterexample: with an enhancement recorded, committing a further
edit leaves the enhanced slot intact (still `"data:image/E"`), while the
claim requires it to be cleared. -/
theorem edit_keeps_enhanced_slot :
    (runApp [AppOp.adopt "data:image/S", AppOp.enhance "data:image/E",
      AppOp.edit "data:image/B"]).enhancedImage = "data:image/E"
    ∧ ("data:image/E" : String) ≠ "" := by
  constructor
  · decide
  · decide

/-- C5 (amended): recording a new edit sets `editedImage` and `imageSrc`
to the new buffer but does NOT clear the enhanced slot — a prior
enhancement survives a subsequent edit unchanged. -/
theorem record_edit_sets_current_keeps_enhanced (st : AppState) (s : String)
    (hv : validImg s = true) :
    (handleImageEdit st s).imageSrc = s
    ∧ (handleImageEdit st s).editedImage = s
    ∧ (handleImageEdit st s).enhancedImage = st.enhancedImage := by
  simp [handleImageEdit, hv]

/-- Witness for C5's amended theorem at a concrete state and edit. -/
theorem record_edit_sets_current_keeps_enhanced_witness :
    validImg "data:image/B" = true
    ∧ ((handleImageEdit ⟨"data:image/S", "data:image/S", "data:image/S",
          "data:image/E", 2, none⟩ "data:image/B").imageSrc = "data:image/B"
        ∧ (handleImageEdit ⟨"data:image/S", "data:image/S", "data:image/S",
            "data:image/E", 2, none⟩ "data:image/B").editedImage = "data:image/B"
        ∧ (handleImageEdit ⟨"data:image/S", "data:image/S", "data:image/S",
            "data:image/E", 2, none⟩ "data:image/B").enhancedImage = "data:image/E") :=
  ⟨by decide,
    record_edit_sets_current_keeps_enhanced
      ⟨"data:image/S", "data:image/S", "data:image/S", "data:image/E", 2, none⟩
      "data:image/B" (by decide)⟩

/-- C6 counterexample: selecting the enhanced version while the enhanced
slot is empty returns the state unchanged with an empty toast list — no
`VersionUnavailable` (nor any other) error is signalled, while the claim
requires one. -/
theorem select_enhanced_absent_is_silent :
    handleSelectImage ⟨"data:image/S", "data:image/S", "data:image/S", "", 2, none⟩
        ImgType.enhanced
      = (⟨"data:image/S", "data:image/S", "data:image/S", "", 2, none⟩, []) := by
  decide

/-- C6 (amended): when the enhanced slot is absent, selecting the
Enhanced version leaves the whole state unchanged and signals nothing at
all (no error toast of any kind); when the slot is present, it sets the
current image to the enhanced buffer. -/
theorem select_enhanced_cases (st : AppState) :
    (st.enhancedImage = "" → handleSelectImage st ImgType.enhanced = (st, []))
    ∧ (st.enhancedImage ≠ "" →
        (handleSelectImage st ImgType.enhanced).1
            = { st with imageSrc := st.enhancedImage }
          ∧ ∀ m, Toast.error m ∉ (handleSelectImage st ImgType.enhanced).2) := by
  constructor
  · intro he
    simp [handleSelectImage, he]
  · intro hne
    refine ⟨?_, ?_⟩
    · simp [handleSelectImage, hne]
    · intro m
      simp [handleSelectImage, hne]

/-- Witness for C6's amended theorem, exercising both the absent and the
present branch at concrete states. -/
theorem select_enhanced_cases_witness :
    (("" : String) = "" ∧ handleSelectImage
        ⟨"data:image/S", "data:image/S", "data:image/S", "", 2, none⟩ ImgType.enhanced
      = (⟨"data:image/S", "data:image/S", "data:image/S", "", 2, none⟩, []))
    ∧ (("data:image/E" : String) ≠ ""
        ∧ (handleSelectImage ⟨"data:image/S", "data:image/S", "data:image/S",
            "data:image/E", 2, none⟩ ImgType.enhanced).1
          = ⟨"data:image/E", "data:image/S", "data:image/S", "data:image/E", 2, none⟩) :=
  ⟨⟨rfl, (select_enhanced_cases
      ⟨"data:image/S", "data:image/S", "data:image/S", "", 2, none⟩).1 rfl⟩,
    ⟨by decide, ((select_enhanced_cases
      ⟨"data:image/S", "data:image/S", "data:image/S", "data:image/E", 2, none⟩).2
        (by decide)).1⟩⟩

/-- A JavaScript error value as seen by `handleProcessOCR`'s catch block:
its `name` (the response interceptor sets `"TimeoutError"` on timeouts)
and its `message`. -/
structure JsError where
  name : String
  message : String
  deriving Repr, DecidableEq

/-- The two OCR endpoints of the service module. -/
inductive OcrEndpoint where
  | anverso
  | reverso
  deriving Repr, DecidableEq

/-- Endpoint routing in `handleProcessOCR`:
`isReverso ? ocrService.processReverso : ocrService.processAnverso`
(reverso is the back side, anverso the front side). -/
def chooseOcrEndpoint (isReverso : Bool) : OcrEndpoint :=
  if isReverso then .reverso else .anverso

/-- The toast message built by `handleProcessOCR`'s catch block: timeout
errors (already formatted by the interceptor) are shown as-is, any other
error through the generic OCR message with a fallback. -/
def ocrErrorMessage (e : JsError) : String :=
  if e.name = "TimeoutError" then e.message
  else "Error en OCR: " ++ (if e.message = "" then "Error desconocido" else e.message)

/-- `App.handleProcessOCR`, with the external call's outcome passed in as
an `Except`: an empty current image is rejected up front; a successful
call stores the returned fields and advances to step 3; a failed call
leaves the state untouched and surfaces the error message.  The second
component is the surfaced error, `none` on success. -/
def handleProcessOCR (st : AppState) (result : Except JsError String) :
    AppState × Option String :=
  if st.imageSrc = "" then (st, some "No hay imagen para procesar")
  else
    match result with
    | .ok fields => ({ st with ocrData := some fields, activeStep := 3 }, none)
    | .error e => (st, some (ocrErrorMessage e))

/-- C7: with a current image present, the Process transition routes by the
side mode (`reverso` for back, `anverso` for front); on success it stores
the returned fields and advances the stage to step 3 (Recognize); on
failure it leaves the state — stage and stored fields — unchanged and
surfaces an error message, with timeout errors distinguishable by the
`TimeoutError` name. -/
theorem process_ocr_success_and_failure (st : AppState) (h : st.imageSrc ≠ "") :
    chooseOcrEndpoint true = OcrEndpoint.reverso
    ∧ chooseOcrEndpoint false = OcrEndpoint.anverso
    ∧ (∀ fields, (handleProcessOCR st (Except.ok fields)).1.ocrData = some fields
        ∧ (handleProcessOCR st (Except.ok fields)).1.activeStep = 3
        ∧ (handleProcessOCR st (Except.ok fields)).2 = none)
    ∧ (∀ e, (handleProcessOCR st (Except.error e)).1 = st
        ∧ (handleProcessOCR st (Except.error e)).2 = some (ocrErrorMessage e))
    ∧ (∀ m, ocrErrorMessage ⟨"TimeoutError", m⟩ = m) := by
  refine ⟨rfl, rfl, ?_, ?_, ?_⟩
  · intro fields
    refine ⟨?_, ?_, ?_⟩ <;> simp [handleProcessOCR, h]
  · intro e
    constructor <;> simp [handleProcessOCR, h]
  · intro m
    simp [ocrErrorMessage]

/-- Witness for C7 at a concrete preview-stage state, a successful and a
failed OCR outcome. -/
theorem process_ocr_success_and_failure_witness :
    ("data:image/S" : String) ≠ ""
    ∧ ((handleProcessOCR ⟨"data:image/S", "data:image/S", "data:image/S", "", 2, none⟩
          (Except.ok "fields")).1.activeStep = 3
        ∧ (handleProcessOCR ⟨"data:image/S", "data:image/S", "data:image/S", "", 2, none⟩
            (Except.error ⟨"TimeoutError", "t"⟩)).1
          = ⟨"data:image/S", "data:image/S", "data:image/S", "", 2, none⟩) :=
  ⟨by decide,
    ((process_ocr_success_and_failure
        ⟨"data:image/S", "data:image/S", "data:image/S", "", 2, none⟩
        (by decide)).2.2.1 "fields").2.1,
    ((process_ocr_success_and_failure
        ⟨"data:image/S", "data:image/S", "data:image/S", "", 2, none⟩
        (by decide)).2.2.2.1 ⟨"TimeoutError", "t"⟩).1⟩

/-- A crop selection rectangle, in the coordinate space the user saw on
screen, with rational coordinates standing for the JS numbers. -/
structure CropRect where
  x : ℚ
  y : ℚ
  width : ℚ
  height : ℚ
  deriving Repr, DecidableEq

/-- The `pixelCrop` record of `applyCrop`: the selection mapped into
natural-pixel space by the two scale factors. -/
def pixelCropOf (c : CropRect) (scaleX scaleY : ℚ) : CropRect :=
  ⟨c.x * scaleX, c.y * scaleY, c.width * scaleX, c.height * scaleY⟩

/-- Assignment of a JS number to `canvas.width` / `canvas.height`
(WebIDL `unsigned long`): the value is truncated toward zero. -/
def canvasDim (q : ℚ) : ℤ :=
  if 0 ≤ q then ⌊q⌋ else -⌊-q⌋

/-- The output dimensions of `applyCrop`: scale factors
`naturalWidth / img.width` and `naturalHeight / img.height` (displayed
size), the `pixelCrop` record, and the canvas sized to the scaled
selection; `toDataURL` encodes a buffer of exactly the canvas size. -/
def applyCropDims (naturalW naturalH dispW dispH : ℚ) (c : CropRect) : ℤ × ℤ :=
  let scaleX := naturalW / dispW
  let scaleY := naturalH / dispH
  let pc := pixelCropOf c scaleX scaleY
  (canvasDim pc.width, canvasDim pc.height)

/-- C8: for a selection in displayed coordinates with nonnegative
dimensions, the crop output buffer is exactly
`⌊rect.width * naturalW / dispW⌋ × ⌊rect.height * naturalH / dispH⌋` —
the rect scaled by `naturalWidth/displayedWidth` and
`naturalHeight/displayedHeight`, rounded consistently by floor. -/
theorem crop_output_dims (naturalW naturalH dispW dispH : ℚ) (c : CropRect)
    (hw : 0 ≤ c.width) (hh : 0 ≤ c.height)
    (hnW : 0 ≤ naturalW) (hnH : 0 ≤ naturalH)
    (hdW : 0 < dispW) (hdH : 0 < dispH) :
    applyCropDims naturalW naturalH dispW dispH c
      = (⌊c.width * naturalW / dispW⌋, ⌊c.height * naturalH / dispH⌋) := by
  have hsx : (0:ℚ) ≤ naturalW / dispW := div_nonneg hnW hdW.le
  have hsy : (0:ℚ) ≤ naturalH / dispH := div_nonneg hnH hdH.le
  have hpw : (0:ℚ) ≤ c.width * (naturalW / dispW) := mul_nonneg hw hsx
  have hph : (0:ℚ) ≤ c.height * (naturalH / dispH) := mul_nonneg hh hsy
  simp only [applyCropDims, pixelCropOf, canvasDim]
  rw [if_pos hpw, if_pos hph, mul_div_assoc, mul_div_assoc]

/-- Witness for C8: a 50×30 selection on a 100×200-pixel displayed image
whose natural size is 300×500 yields a 150×75 buffer. -/
theorem crop_output_dims_witness :
    (0:ℚ) ≤ 50 ∧ (0:ℚ) ≤ 30 ∧ (0:ℚ) ≤ 300 ∧ (0:ℚ) ≤ 500
    ∧ (0:ℚ) < 100 ∧ (0:ℚ) < 200
    ∧ applyCropDims 300 500 100 200 ⟨10, 20, 50, 30⟩
        = (⌊(50:ℚ) * 300 / 100⌋, ⌊(30:ℚ) * 500 / 200⌋) :=
  ⟨by norm_num, by norm_num, by norm_num, by norm_num, by norm_num, by norm_num,
    crop_output_dims 300 500 100 200 ⟨10, 20, 50, 30⟩
      (by norm_num) (by norm_num) (by norm_num) (by norm_num) (by norm_num) (by norm_num)⟩

/-- Outcome of the uploader's `handleFileChange` validation. -/
inductive FileValidation where
  | accepted
  | rejectedNotImage
  | rejectedTooLarge
  deriving Repr, DecidableEq

/-- The uploader's size limit: `10 * 1024 * 1024` bytes (10 MiB). -/
def maxFileBytes : Nat := 10 * 1024 * 1024

/-- The uploader's `handleFileChange` validation: first the MIME type must
start with `image/`, then the size must not exceed 10 MiB; only then is
`onImageSelect(file)` invoked (`accepted`).  Decoding (FileReader in
`App.handleImageSelect`) happens only after acceptance. -/
def handleFileChange (fileType : String) (fileSize : Nat) : FileValidation :=
  if ¬ ("image/".data.isPrefixOf fileType.data) then .rejectedNotImage
  else if fileSize > maxFileBytes then .rejectedTooLarge
  else .accepted

/-- C9 counterexample: a 1 KiB GIF file (`image/gif`) is accepted by the
validation and handed to `onImageSelect`, although its encoding is none
of JPEG, PNG, or WEBP. -/
theorem gif_file_is_accepted :
    handleFileChange "image/gif" 1024 = FileValidation.accepted
    ∧ ("image/gif" : String) ≠ "image/jpeg"
    ∧ ("image/gif" : String) ≠ "image/png"
    ∧ ("image/gif" : String) ≠ "image/webp" := by
  refine ⟨by decide, by decide, by decide, by decide⟩

/-- C9 (amended): a file is accepted (and `onImageSelect` invoked) if and
only if its MIME type starts with `image/` — which admits JPEG, PNG and
WEBP but also every other image subtype — and its size is at most 10 MiB;
an image file above the size limit is rejected with the size error, before
any decode attempt. -/
theorem file_validation_cases (t : String) (n : Nat) :
    (handleFileChange t n = FileValidation.accepted
      ↔ "image/".data.isPrefixOf t.data = true ∧ n ≤ maxFileBytes)
    ∧ (handleFileChange t n = FileValidation.rejectedTooLarge
      ↔ "image/".data.isPrefixOf t.data = true ∧ maxFileBytes < n) := by
  unfold handleFileChange
  by_cases hp : "image/".data.isPrefixOf t.data = true
  · by_cases hs : n ≤ maxFileBytes
    · constructor
      · simp [hp, hs]
      · simp [hp, hs, Nat.not_lt.mpr hs]
    · constructor
      · simp [hp, hs, Nat.lt_of_not_le hs]
      · simp [hp, Nat.lt_of_not_le hs]
  · have hp' : "image/".data.isPrefixOf t.data = false := by
      cases hb : "image/".data.isPrefixOf t.data
      · rfl
      · exact absurd hb hp
    constructor
    · simp [hp']
    · simp [hp']

/-- Witness for C9's amended theorem at a concrete PNG file. -/
theorem file_validation_cases_witness :
    (handleFileChange "image/png" 5 = FileValidation.accepted
      ↔ "image/".data.isPrefixOf "image/png".data = true ∧ 5 ≤ maxFileBytes)
    ∧ (handleFileChange "image/png" 5 = FileValidation.rejectedTooLarge
      ↔ "image/".data.isPrefixOf "image/png".data = true ∧ maxFileBytes < 5) :=
  file_validation_cases "image/png" 5

/-- The localStorage-backed session check `authService.isSessionActive`:
`jwt_token` and `token_expiry` are read from storage (`none` models an
absent key, the empty string is falsy in JS, and `token_expiry` is the
stored millisecond timestamp as parsed by `parseInt`); the session is
active only while the current time is strictly before the stored expiry
minus the 60000 ms safety margin. -/
def isSessionActive (token : Option String) (expiry : Option Int) (now : Int) : Bool :=
  match token, expiry with
  | some t, some e => if t = "" then false else decide (now < e - 60000)
  | _, _ => false

/-- C10: `isSessionActive` returns true exactly when both a token and an
expiry are stored (and the token is non-empty) and the current time is
strictly earlier than the stored expiry minus 60000 ms; in particular,
during the final minute before the recorded expiry the session is already
reported inactive. -/
theorem session_active_iff (token : Option String) (expiry : Option Int) (now : Int) :
    (isSessionActive token expiry now = true
      ↔ (∃ t, token = some t ∧ t ≠ "") ∧ (∃ e, expiry = some e ∧ now < e - 60000))
    ∧ (∀ e, expiry = some e → e - 60000 ≤ now →
        isSessionActive token expiry now = false) := by
  constructor
  · cases token with
    | none => simp [isSessionActive]
    | some t =>
        cases expiry with
        | none => simp [isSessionActive]
        | some e =>
            by_cases ht : t = ""
            · simp [isSessionActive, ht]
            · simp [isSessionActive, ht]
  · intro e he hle
    cases token with
    | none => simp [isSessionActive]
    | some t =>
        subst he
        by_cases ht : t = ""
        · simp [isSessionActive, ht]
        · simp [isSessionActive, ht]
          omega

/-- Witness for C10: a stored token and an expiry of 100000 ms; at time
30000 the session is active, and at time 70000 — inside the final minute
before expiry — it is already reported inactive. -/
theorem session_active_iff_witness :
    isSessionActive (some "tok") (some 100000) 30000 = true
    ∧ ((some (100000 : Int)) = some 100000 ∧ (100000 : Int) - 60000 ≤ 70000
        ∧ isSessionActive (some "tok") (some 100000) 70000 = false) :=
  ⟨((session_active_iff (some "tok") (some 100000) 30000).1).mpr
      ⟨⟨"tok", rfl, by decide⟩, ⟨100000, rfl, by decide⟩⟩,
    rfl, by decide,
    (session_active_iff (some "tok") (some 100000) 70000).2 100000 rfl (by decide)⟩

end OcrFront
